import Mathlib

/-
Verification of gdelt_bulk_downloader.py (AskRemind/Gdelt-Bulk-Downloader).

The Python source is shallowly embedded below.  Strings are modelled as
`List Char` (obtained from Lean string literals via `String.data`), file
paths as lists of path segments (`List (List Char)`), machine integers as
`Int`/`Nat` (Python integers are unbounded, so no wrap-around is modelled),
and the side effects of a run (HTTP fetch attempts, sleeps, log lines,
failure-log opens/writes, archive extractions, progress-bar increments) as
an explicit event trace `List Event`.  The byte-progress bar
(`pbar_bytes`) and the raw chunk writes of the archive body are not given
events: no claim mentions them.  The outcome of each network fetch and of
each archive extraction is supplied by oracles, since HTTP transport and
ZIP decoding are external collaborators in the spec.
-/

set_option maxHeartbeats 1000000

namespace Gdelt

/-- Whitespace as recognised by Python `str.split()` with no argument:
space, tab, newline, carriage return, vertical tab, form feed. -/
def isWsChar (c : Char) : Bool :=
  c == ' ' || c == '\t' || c == '\n' || c == '\r' || c == '\x0b' || c == '\x0c'

/-- Helper for `splitWs`: accumulate the current (reversed) token. -/
def splitWsAux : List Char → List Char → List (List Char)
  | [], acc => if acc.isEmpty then [] else [acc.reverse]
  | c :: rest, acc =>
    if isWsChar c then
      if acc.isEmpty then splitWsAux rest [] else acc.reverse :: splitWsAux rest []
    else
      splitWsAux rest (c :: acc)

/-- Python `line.strip().split()`: split on runs of whitespace, dropping
leading and trailing whitespace (which makes the `strip` redundant). -/
def splitWs (s : List Char) : List (List Char) :=
  splitWsAux s []

/-- Helper for `splitOnChar`. -/
def splitOnCharAux (sep : Char) : List Char → List Char → List (List Char)
  | [], acc => [acc.reverse]
  | c :: rest, acc =>
    if c == sep then acc.reverse :: splitOnCharAux sep rest []
    else splitOnCharAux sep rest (c :: acc)

/-- Split a string at every occurrence of `sep`, keeping empty pieces. -/
def splitOnChar (sep : Char) (s : List Char) : List (List Char) :=
  splitOnCharAux sep s []

/-- Digit accumulator for `pyIntParse`. -/
def digitsVal : List Char → Nat → Option Nat
  | [], acc => some acc
  | c :: rest, acc =>
    if c.isDigit then digitsVal rest (acc * 10 + (c.toNat - 48)) else none

/-- A non-empty all-digit string, as a number. -/
def pyDigits : List Char → Option Nat
  | [] => none
  | c :: rest => digitsVal (c :: rest) 0

/-- Python `int(s)` on a whitespace-free token: an optional single sign
followed by at least one decimal digit.  (Python additionally allows
single underscores between digits; no manifest token in any claim uses
them, and the source never produces one.) -/
def pyIntParse : List Char → Option Int
  | '-' :: rest => (pyDigits rest).map (fun n => -(n : Int))
  | '+' :: rest => (pyDigits rest).map (fun n => (n : Int))
  | s => (pyDigits s).map (fun n => (n : Int))

/-- `Path(url).name`: the last non-empty `/`-separated component.  For
every url that passes the archive-suffix check this agrees with
`pathlib`, whose special cases (`.`/`..` final components) cannot end in
the suffix. -/
def nameOf (url : List Char) : List Char :=
  (((splitOnChar '/' url).filter (fun seg => !seg.isEmpty)).getLast?).getD []

/-- `name.split(".")[0]`: the characters before the first dot. -/
def tsOf (name : List Char) : List Char :=
  name.takeWhile (fun c => c != '.')

/-- The archive suffix required of every manifest url. -/
def gkgSuffix : List Char := ".gkg.csv.zip".data

/-- The resolved run configuration (the fields of `args` that the core
pipeline reads).  `output` is the segment list of `OUTPUT_ROOT`. -/
structure Config where
  output : List (List Char)
  raw_subdir : List Char
  retries : Nat
  skip_extract : Bool
  year_from : Option Int
  year_to : Option Int

/-- Python truthiness of an optional integer flag: `None` and `0` are
falsy. -/
def truthyOpt : Option Int → Bool
  | none => false
  | some v => v != 0

/-- The truthiness test `args.year_from and year < args.year_from`:
`None` and `0` are falsy in Python, so the lower bound only applies when
present and non-zero. -/
def dropLow (yf : Option Int) (year : Int) : Bool :=
  match yf with
  | none => false
  | some v => v != 0 && decide (year < v)

/-- The truthiness test `args.year_to and year > args.year_to`. -/
def dropHigh (yt : Option Int) (year : Int) : Bool :=
  match yt with
  | none => false
  | some v => v != 0 && decide (v < year)

/-- A task survives the year filter of `parse_masterfiles` when neither
bound drops it. -/
def yearKeep (yf yt : Option Int) (year : Int) : Bool :=
  !dropLow yf year && !dropHigh yt year

/-- A task tuple `(size_bytes, url, year)`, exactly as in the source. -/
abbrev Task := Int × List Char × Int

/-- The per-line body of `parse_masterfiles` before the year filter:
exactly three whitespace-separated fields, url ending in `.gkg.csv.zip`,
`int(size)` succeeding, and `int(Path(url).name.split(".")[0][:4])`
succeeding (the `except` clauses turn a failed parse into a skip). -/
def parseLineRaw (line : List Char) : Option Task :=
  match splitWs line with
  | [size, _hash, url] =>
    if gkgSuffix.isSuffixOf url then
      match pyIntParse size with
      | some sizeInt =>
        match pyIntParse ((tsOf (nameOf url)).take 4) with
        | some year => some (sizeInt, url, year)
        | none => none
      | none => none
    else none
  | _ => none

/-- One manifest line of `parse_masterfiles`, year filter included. -/
def lineTask (cfg : Config) (line : List Char) : Option Task :=
  match parseLineRaw line with
  | some t => if yearKeep cfg.year_from cfg.year_to t.2.2 then some t else none
  | none => none

/-- `parse_masterfiles`: the accepted task list (in manifest order; the
optional `random.shuffle` is modelled at the theorem level as an
arbitrary permutation of this list) and `total_bytes`, the sum of the
accepted sizes. -/
def parse_masterfiles (cfg : Config) (lines : List (List Char)) :
    List Task × Int :=
  let tasks := lines.filterMap (lineTask cfg)
  (tasks, (tasks.map (fun t => t.1)).sum)

/-- Observable side effects of a run, in program order.  Paths are
segment lists rooted at the filesystem (so they start with the segments
of `OUTPUT_ROOT`). -/
inductive Event where
  | fetchAttempt (attempt : Nat)
  | sleep (units : Nat)
  | logWarning
  | logError
  | openFailLog
  | writeFailLog (content : List Char)
  | extract (zipPath target : List (List Char))
  | progressInc
deriving DecidableEq, Repr

/-- Outcome of one `session.get` attempt: HTTP 404, any other failure
(exception from the request, `raise_for_status`, or the chunk loop), or
success. -/
inductive FetchOutcome where
  | notFound
  | failure
  | success
deriving DecidableEq

/-- `str(path)` for a segment-list path: segments joined by `/`. -/
def pathStr (p : List (List Char)) : List Char :=
  (List.intercalate ['/'] p)

/-- `p.parents[k]` of `pathlib`: drop the last `k + 1` segments. -/
def parents (k : Nat) (p : List (List Char)) : List (List Char) :=
  p.take (p.length - (k + 1))

/-- `str(year)` (Python `str` of an int). -/
def yearStr (y : Int) : List Char := (toString y).data

/-- `fname[:-4]`: the archive filename with the final `.zip` stripped. -/
def csvName (fname : List Char) : List Char :=
  fname.take (fname.length - 4)

/-- `OUTPUT_ROOT / str(year)` for a task. -/
def yearDirOf (cfg : Config) (t : Task) : List (List Char) :=
  cfg.output ++ [yearStr t.2.2]

/-- `year_dir / RAW_SUBDIR / fname`: the archive path of a task. -/
def zipPathOf (cfg : Config) (t : Task) : List (List Char) :=
  yearDirOf cfg t ++ [cfg.raw_subdir, nameOf t.2.1]

/-- `year_dir / csv_name`: the extracted-file path of a task. -/
def csvPathOf (cfg : Config) (t : Task) : List (List Char) :=
  yearDirOf cfg t ++ [csvName (nameOf t.2.1)]

/-- The `try/except zipfile` block shared by the inline extraction step of
`download_task` and by `extract_one`: attempt the extraction; on any
error log it and append `str(zip_path)` to `failures.log` via a fresh
`open("a")`.  `ok` is the oracle for whether the ZIP opens and extracts
cleanly. -/
def extract_one (zip_path year_dir : List (List Char)) (ok : Bool) :
    List Event :=
  Event.extract zip_path year_dir ::
    (if ok then []
     else [Event.logError, Event.openFailLog,
           Event.writeFailLog (pathStr zip_path ++ ['\n'])])

/-- The `for attempt in range(1, args.retries + 1)` loop of
`download_task`.  `fuel` is the number of iterations left and `attempt`
the 1-based loop counter (the loop is entered with `fuel = retries`,
`attempt = 1`).  Returns the emitted events and whether the task was
aborted (`return` taken): a 404 aborts immediately with only a warning,
any other failure on the last attempt aborts after appending the url to
`failures.log`, an earlier failure sleeps `2 ** attempt` and retries, and
a success breaks out of the loop. -/
def retryLoop (oracle : Nat → FetchOutcome) (retries : Nat)
    (url : List Char) : Nat → Nat → List Event × Bool
  | 0, _ => ([], false)
  | fuel + 1, attempt =>
    match oracle attempt with
    | FetchOutcome.success => ([Event.fetchAttempt attempt], false)
    | FetchOutcome.notFound =>
      ([Event.fetchAttempt attempt, Event.logWarning], true)
    | FetchOutcome.failure =>
      if attempt = retries then
        ([Event.fetchAttempt attempt, Event.logError, Event.openFailLog,
          Event.writeFailLog (url ++ ['\n'])], true)
      else
        let rest := retryLoop oracle retries url fuel (attempt + 1)
        (Event.fetchAttempt attempt :: Event.sleep (2 ^ attempt) :: rest.1,
         rest.2)

/-- `download_task`: the full per-task body.  `csvExists` and `zipExists`
are the `csv_path.exists()` / `zip_path.exists()` checks at entry,
`oracle` gives the outcome of each fetch attempt and `extractOk` the
outcome of the inline extraction.  Already-extracted tasks only bump the
file progress bar; a missing archive is fetched through `retryLoop`, and
an abort there (`return` in the source) skips both the extraction and
the final progress update; otherwise extraction runs unless
`--skip-extract`, and the progress bar is bumped once. -/
def download_task (cfg : Config) (oracle : Nat → FetchOutcome)
    (extractOk : Bool) (csvExists zipExists : Bool) (t : Task) :
    List Event :=
  if csvExists then [Event.progressInc]
  else
    let dl :=
      if zipExists then (([] : List Event), false)
      else retryLoop oracle cfg.retries t.2.1 cfg.retries 1
    if dl.2 then dl.1
    else
      dl.1 ++
        (if cfg.skip_extract then []
         else extract_one (zipPathOf cfg t) (yearDirOf cfg t) extractOk) ++
        [Event.progressInc]

/-- The per-task inputs of one submitted download job: its fetch and
extraction oracles, the two resume-check results, and the task itself. -/
structure TaskRun where
  oracle : Nat → FetchOutcome
  extractOk : Bool
  csvExists : Bool
  zipExists : Bool
  task : Task

/-- Trace of one submitted task. -/
def taskTrace (cfg : Config) (r : TaskRun) : List Event :=
  download_task cfg r.oracle r.extractOk r.csvExists r.zipExists r.task

/-- Whether a task is aborted in the download stage (its `return` is
taken inside the retry loop): only possible when neither resume check
fires. -/
def dlAborted (cfg : Config) (r : TaskRun) : Bool :=
  !r.csvExists && !r.zipExists &&
    (retryLoop r.oracle cfg.retries r.task.2.1 cfg.retries 1).2

/-- Trace of a whole download phase over a list of submitted tasks.  The
thread pool may interleave the per-task traces; every count proved below
is invariant under interleaving, so the concatenation is used. -/
def runTrace (cfg : Config) (rs : List TaskRun) : List Event :=
  rs.flatMap (taskTrace cfg)

/-- Discovery test of the extraction-only phase,
`OUTPUT_ROOT.rglob(f"{RAW_SUBDIR}/*.zip")`: a file below the output
root, at relative depth at least two, whose parent directory is named
`RAW_SUBDIR` and whose filename ends in `.zip`. -/
def rawZipMatch (cfg : Config) (p : List (List Char)) : Bool :=
  cfg.output.isPrefixOf p &&
  decide (cfg.output.length + 2 ≤ p.length) &&
  ((p.dropLast.getLast?.getD []) == cfg.raw_subdir) &&
  (".zip".data.isSuffixOf (p.getLast?.getD []))

/-- `p.parts[-3]`: the third segment from the end (the year directory of
a conforming archive path). -/
def thirdLast (p : List (List Char)) : List Char :=
  (p.dropLast.dropLast.getLast?).getD []

/-- The year filter of the extraction-only phase:
`(args.year_from or 0) <= int(p.parts[-3]) <= (args.year_to or 9999)`,
applied only `if args.year_from or args.year_to` (truthiness again).
In the source an unparsable year directory raises an uncaught
`ValueError`; the claims only concern conforming trees, where the parse
succeeds, and here a failed parse drops the path. -/
def standaloneKeepYear (cfg : Config) (p : List (List Char)) : Bool :=
  if truthyOpt cfg.year_from || truthyOpt cfg.year_to then
    match pyIntParse (thirdLast p) with
    | some y =>
      decide ((if truthyOpt cfg.year_from then cfg.year_from.getD 0 else 0) ≤ y) &&
      decide (y ≤ (if truthyOpt cfg.year_to then cfg.year_to.getD 0 else 9999))
    | none => false
  else true

/-- The extraction-only phase of `main`: discover every archive under a
raw subdirectory, filter by year, and submit
`extract_one(zp, zp.parents[2])` for each — with no check whatsoever of
whether the extracted output already exists.  `fsFiles` lists the files
on disk and `extractOkF` is the per-archive extraction oracle. -/
def extract_only_run (cfg : Config) (fsFiles : List (List (List Char)))
    (extractOkF : List (List Char) → Bool) : List Event :=
  ((fsFiles.filter (rawZipMatch cfg)).filter (standaloneKeepYear cfg)).flatMap
    (fun zp => extract_one zp (parents 2 zp) (extractOkF zp))

/-- Event classifier: a fetch attempt. -/
def isFetchEv : Event → Bool
  | Event.fetchAttempt _ => true
  | _ => false

/-- Event classifier: a write to `failures.log`. -/
def isWriteFailEv : Event → Bool
  | Event.writeFailLog _ => true
  | _ => false

/-- Event classifier: an `open("a")` of `failures.log`. -/
def isOpenFailEv : Event → Bool
  | Event.openFailLog => true
  | _ => false

/-- Event classifier: an archive extraction attempt. -/
def isExtractEv : Event → Bool
  | Event.extract _ _ => true
  | _ => false

/-- Event classifier: a file-progress-bar increment. -/
def isProgressEv : Event → Bool
  | Event.progressInc => true
  | _ => false

/-- Event classifier: a warning log line. -/
def isWarnEv : Event → Bool
  | Event.logWarning => true
  | _ => false

/-- Number of fetch attempts in a trace. -/
def fetchCount (evs : List Event) : Nat := evs.countP isFetchEv

/-- Number of failure-log records (writes) in a trace. -/
def failWriteCount (evs : List Event) : Nat := evs.countP isWriteFailEv

/-- Number of failure-log opens in a trace. -/
def openFailCount (evs : List Event) : Nat := evs.countP isOpenFailEv

/-- Number of extraction attempts in a trace. -/
def extractCount (evs : List Event) : Nat := evs.countP isExtractEv

/-- Number of file-progress increments in a trace. -/
def progressCount (evs : List Event) : Nat := evs.countP isProgressEv

/-- Number of warning log lines in a trace. -/
def warnCount (evs : List Event) : Nat := evs.countP isWarnEv

/-- The sleep durations of a trace, in order. -/
def sleepsOf (evs : List Event) : List Nat :=
  evs.filterMap (fun e => match e with
    | Event.sleep t => some t
    | _ => none)

/-- The attempt numbers `a, a+1, ..., a+n-1`. -/
def attemptSeq (a : Nat) : Nat → List Nat
  | 0 => []
  | n + 1 => a :: attemptSeq (a + 1) n

/-- One failed non-final attempt: the fetch followed by its backoff
sleep of `2 ^ attempt`. -/
def pairF (k : Nat) : List Event :=
  [Event.fetchAttempt k, Event.sleep (2 ^ k)]

/-- The trace of a download whose every attempt fails with a non-404
error: `retries` attempts, doubling backoff after all but the last, then
one failure record. -/
def backoffFailTrace (retries : Nat) (url : List Char) : List Event :=
  (attemptSeq 1 (retries - 1)).flatMap pairF ++
    [Event.fetchAttempt retries, Event.logError, Event.openFailLog,
     Event.writeFailLog (url ++ ['\n'])]

/-- The trace of a download that fails transiently `j - 1` times and
then receives a 404 on attempt `j`: no failure record at all. -/
def notFoundTrace (j : Nat) : List Event :=
  (attemptSeq 1 (j - 1)).flatMap pairF ++
    [Event.fetchAttempt j, Event.logWarning]

lemma countP_flatMap_pairF (p : Event → Bool) (ks : List Nat) :
    (ks.flatMap pairF).countP p =
      ks.countP (fun k => p (Event.fetchAttempt k)) +
      ks.countP (fun k => p (Event.sleep (2 ^ k))) := by
  induction ks with
  | nil => simp
  | cons k ks ih =>
    simp only [List.flatMap_cons, List.countP_append, List.countP_cons, ih,
      pairF, List.countP_nil]
    cases p (Event.fetchAttempt k) <;> cases p (Event.sleep (2 ^ k)) <;>
      simp <;> omega

lemma sleepsOf_flatMap_pairF (ks : List Nat) :
    sleepsOf (ks.flatMap pairF) = ks.map (fun k => 2 ^ k) := by
  induction ks with
  | nil => simp [sleepsOf]
  | cons k ks ih =>
    simp only [List.flatMap_cons, sleepsOf, List.filterMap_append] at *
    simp [pairF, ih]

lemma length_attemptSeq : ∀ (n a : Nat), (attemptSeq a n).length = n := by
  intro n
  induction n with
  | zero => intro a; rfl
  | succ n ih => intro a; simp [attemptSeq, ih]

lemma mem_attemptSeq {k : Nat} :
    ∀ {n a : Nat}, k ∈ attemptSeq a n → a ≤ k ∧ k < a + n := by
  intro n
  induction n with
  | zero => intro a h; simp [attemptSeq] at h
  | succ n ih =>
    intro a h
    simp only [attemptSeq, List.mem_cons] at h
    rcases h with h | h
    · omega
    · have := ih h; omega

lemma fetch_mem_flatMap_pairF {k : Nat} {ks : List Nat}
    (h : Event.fetchAttempt k ∈ ks.flatMap pairF) : k ∈ ks := by
  rcases List.mem_flatMap.mp h with ⟨a, ha, hev⟩
  simp only [pairF, List.mem_cons, List.not_mem_nil] at hev
  rcases hev with h1 | h1 | h1
  · cases h1; exact ha
  · cases h1
  · cases h1

lemma retryLoop_success (oracle : Nat → FetchOutcome) (retries : Nat)
    (url : List Char) (fuel attempt : Nat)
    (h : oracle attempt = FetchOutcome.success) :
    retryLoop oracle retries url (fuel + 1) attempt =
      ([Event.fetchAttempt attempt], false) := by
  simp [retryLoop, h]

lemma retryLoop_allFail (oracle : Nat → FetchOutcome) (retries : Nat)
    (url : List Char) (hfail : ∀ k, oracle k = FetchOutcome.failure) :
    ∀ fuel attempt, 1 ≤ attempt → attempt ≤ retries →
      attempt + fuel = retries + 1 →
      retryLoop oracle retries url fuel attempt =
        ((attemptSeq attempt (retries - attempt)).flatMap pairF ++
          [Event.fetchAttempt retries, Event.logError, Event.openFailLog,
           Event.writeFailLog (url ++ ['\n'])], true) := by
  intro fuel
  induction fuel with
  | zero => intro attempt h1 h2 h3; omega
  | succ fuel ih =>
    intro attempt h1 h2 h3
    by_cases he : attempt = retries
    · subst he
      have hz : attempt - attempt = 0 := by omega
      simp [retryLoop, hfail, hz, attemptSeq]
    · have hrec := ih (attempt + 1) (by omega) (by omega) (by omega)
      have hs : retries - attempt = (retries - (attempt + 1)) + 1 := by omega
      simp only [retryLoop, hfail, he, if_false, hrec, hs, attemptSeq,
        List.flatMap_cons, pairF]
      simp

lemma retryLoop_notFound (oracle : Nat → FetchOutcome) (retries : Nat)
    (url : List Char) (j : Nat) (hj1 : 1 ≤ j) (hj2 : j ≤ retries)
    (hf : ∀ k, 1 ≤ k → k < j → oracle k = FetchOutcome.failure)
    (h404 : oracle j = FetchOutcome.notFound) :
    ∀ fuel attempt, 1 ≤ attempt → attempt ≤ j →
      attempt + fuel = retries + 1 →
      retryLoop oracle retries url fuel attempt =
        ((attemptSeq attempt (j - attempt)).flatMap pairF ++
          [Event.fetchAttempt j, Event.logWarning], true) := by
  intro fuel
  induction fuel with
  | zero => intro attempt h1 h2 h3; omega
  | succ fuel ih =>
    intro attempt h1 h2 h3
    by_cases he : attempt = j
    · subst he
      have hz : attempt - attempt = 0 := by omega
      simp [retryLoop, h404, hz, attemptSeq]
    · have hfa : oracle attempt = FetchOutcome.failure := hf attempt h1 (by omega)
      have hne : ¬ attempt = retries := by omega
      have hrec := ih (attempt + 1) (by omega) (by omega) (by omega)
      have hs : j - attempt = (j - (attempt + 1)) + 1 := by omega
      simp only [retryLoop, hfa, hne, if_false, hrec, hs, attemptSeq,
        List.flatMap_cons, pairF]
      simp

lemma retryLoop_counts (oracle : Nat → FetchOutcome) (retries : Nat)
    (url : List Char) :
    ∀ fuel attempt,
      progressCount (retryLoop oracle retries url fuel attempt).1 = 0 ∧
      extractCount (retryLoop oracle retries url fuel attempt).1 = 0 ∧
      openFailCount (retryLoop oracle retries url fuel attempt).1 =
        failWriteCount (retryLoop oracle retries url fuel attempt).1 := by
  intro fuel
  induction fuel with
  | zero =>
    intro attempt
    simp [retryLoop, progressCount, extractCount, openFailCount,
      failWriteCount]
  | succ fuel ih =>
    intro attempt
    have hrec := ih (attempt + 1)
    rcases ho : oracle attempt with _ | _ | _
    · simp [retryLoop, ho, progressCount, extractCount, openFailCount,
        failWriteCount, List.countP_cons, isProgressEv, isExtractEv,
        isOpenFailEv, isWriteFailEv]
    · by_cases he : attempt = retries
      · subst he
        simp [retryLoop, ho, progressCount, extractCount,
          openFailCount, failWriteCount, List.countP_cons, isProgressEv,
          isExtractEv, isOpenFailEv, isWriteFailEv]
      · obtain ⟨hp, hx, hw⟩ := hrec
        simp only [progressCount, extractCount, openFailCount,
          failWriteCount] at hp hx hw ⊢
        simp [retryLoop, ho, he, List.countP_cons, isProgressEv,
          isExtractEv, isOpenFailEv, isWriteFailEv, hp, hx, hw]
    · simp [retryLoop, ho, progressCount, extractCount, openFailCount,
        failWriteCount, List.countP_cons, isProgressEv, isExtractEv,
        isOpenFailEv, isWriteFailEv]

lemma retryLoop_fetch_pos (oracle : Nat → FetchOutcome) (retries : Nat)
    (url : List Char) (fuel attempt : Nat) (h : 1 ≤ fuel) :
    1 ≤ fetchCount (retryLoop oracle retries url fuel attempt).1 := by
  rcases fuel with _ | fuel
  · omega
  · rcases ho : oracle attempt with _ | _ | _ <;>
      simp only [retryLoop, ho]
    · simp [fetchCount, List.countP_cons, isFetchEv]
    · by_cases he : attempt = retries <;>
        simp [he, fetchCount, List.countP_cons, isFetchEv]
    · simp [fetchCount, List.countP_cons, isFetchEv]

lemma extract_one_counts (zp yd : List (List Char)) (ok : Bool) :
    progressCount (extract_one zp yd ok) = 0 ∧
    fetchCount (extract_one zp yd ok) = 0 ∧
    extractCount (extract_one zp yd ok) = 1 ∧
    openFailCount (extract_one zp yd ok) =
      failWriteCount (extract_one zp yd ok) := by
  cases ok <;>
    simp [extract_one, progressCount, fetchCount, extractCount,
      openFailCount, failWriteCount, List.countP_cons, isProgressEv,
      isFetchEv, isExtractEv, isOpenFailEv, isWriteFailEv]

lemma download_task_csvExists (cfg : Config) (oracle : Nat → FetchOutcome)
    (exOk zipE : Bool) (t : Task) :
    download_task cfg oracle exOk true zipE t = [Event.progressInc] := rfl

lemma download_task_zipExists (cfg : Config) (oracle : Nat → FetchOutcome)
    (exOk : Bool) (t : Task) :
    download_task cfg oracle exOk false true t =
      (if cfg.skip_extract then []
       else extract_one (zipPathOf cfg t) (yearDirOf cfg t) exOk) ++
        [Event.progressInc] := by
  simp [download_task]

lemma download_task_loop (cfg : Config) (oracle : Nat → FetchOutcome)
    (exOk : Bool) (t : Task) :
    download_task cfg oracle exOk false false t =
      (if (retryLoop oracle cfg.retries t.2.1 cfg.retries 1).2 then
        (retryLoop oracle cfg.retries t.2.1 cfg.retries 1).1
       else
        (retryLoop oracle cfg.retries t.2.1 cfg.retries 1).1 ++
          (if cfg.skip_extract then []
           else extract_one (zipPathOf cfg t) (yearDirOf cfg t) exOk) ++
          [Event.progressInc]) := by
  simp [download_task]

lemma progress_taskTrace (cfg : Config) (r : TaskRun) :
    progressCount (taskTrace cfg r) = if dlAborted cfg r then 0 else 1 := by
  obtain ⟨oracle, exOk, csvE, zipE, t⟩ := r
  have hx : progressCount
      (extract_one (zipPathOf cfg t) (yearDirOf cfg t) exOk) = 0 :=
    (extract_one_counts _ _ exOk).1
  have hskip : progressCount (if cfg.skip_extract then []
      else extract_one (zipPathOf cfg t) (yearDirOf cfg t) exOk) = 0 := by
    cases hsk : cfg.skip_extract
    · simpa [hsk] using hx
    · simp [hsk, progressCount]
  cases csvE
  · cases zipE
    · rcases hL : retryLoop oracle cfg.retries t.2.1 cfg.retries 1 with ⟨evs, ab⟩
      have h0 : progressCount evs = 0 := by
        have h := (retryLoop_counts oracle cfg.retries t.2.1 cfg.retries 1).1
        rw [hL] at h; exact h
      have hab : dlAborted cfg ⟨oracle, exOk, false, false, t⟩ = ab := by
        simp [dlAborted, hL]
      cases ab
      · have htr : taskTrace cfg ⟨oracle, exOk, false, false, t⟩ =
            evs ++ ((if cfg.skip_extract then []
              else extract_one (zipPathOf cfg t) (yearDirOf cfg t) exOk) ++
                [Event.progressInc]) := by
          simp [taskTrace, download_task, hL]
        rw [hab, htr]
        simp only [progressCount, List.countP_append] at h0 hskip ⊢
        simp [h0, hskip, List.countP_cons, isProgressEv]
      · have htr : taskTrace cfg ⟨oracle, exOk, false, false, t⟩ = evs := by
          simp [taskTrace, download_task, hL]
        rw [hab, htr, h0]; rfl
    · have hab : dlAborted cfg ⟨oracle, exOk, false, true, t⟩ = false := by
        simp [dlAborted]
      have htr : taskTrace cfg ⟨oracle, exOk, false, true, t⟩ =
          (if cfg.skip_extract then []
           else extract_one (zipPathOf cfg t) (yearDirOf cfg t) exOk) ++
            [Event.progressInc] := by
        simp [taskTrace, download_task]
      rw [hab, htr]
      simp only [progressCount, List.countP_append] at hskip ⊢
      simp [hskip, List.countP_cons, isProgressEv]
  · simp [taskTrace, download_task, dlAborted, progressCount,
      List.countP_cons, isProgressEv]

lemma progress_runTrace (cfg : Config) (rs : List TaskRun) :
    progressCount (runTrace cfg rs) =
      rs.countP (fun r => !dlAborted cfg r) := by
  induction rs with
  | nil => simp [runTrace, progressCount]
  | cons r rs ih =>
    have h1 := progress_taskTrace cfg r
    simp only [runTrace, List.flatMap_cons, progressCount,
      List.countP_append] at *
    rw [h1, ih, List.countP_cons]
    cases h : dlAborted cfg r
    · simp [h]
      omega
    · simp [h]

lemma openWrite_taskTrace (cfg : Config) (r : TaskRun) :
    openFailCount (taskTrace cfg r) = failWriteCount (taskTrace cfg r) := by
  obtain ⟨oracle, exOk, csvE, zipE, t⟩ := r
  have hx : openFailCount
        (extract_one (zipPathOf cfg t) (yearDirOf cfg t) exOk) =
      failWriteCount (extract_one (zipPathOf cfg t) (yearDirOf cfg t) exOk) :=
    (extract_one_counts _ _ exOk).2.2.2
  have hskip : openFailCount (if cfg.skip_extract then []
        else extract_one (zipPathOf cfg t) (yearDirOf cfg t) exOk) =
      failWriteCount (if cfg.skip_extract then []
        else extract_one (zipPathOf cfg t) (yearDirOf cfg t) exOk) := by
    cases hsk : cfg.skip_extract
    · simpa [hsk] using hx
    · simp [hsk, openFailCount, failWriteCount]
  cases csvE
  · cases zipE
    · rcases hL : retryLoop oracle cfg.retries t.2.1 cfg.retries 1 with ⟨evs, ab⟩
      have h0 : openFailCount evs = failWriteCount evs := by
        have h := (retryLoop_counts oracle cfg.retries t.2.1 cfg.retries 1).2.2
        rw [hL] at h; exact h
      cases ab
      · have htr : taskTrace cfg ⟨oracle, exOk, false, false, t⟩ =
            evs ++ ((if cfg.skip_extract then []
              else extract_one (zipPathOf cfg t) (yearDirOf cfg t) exOk) ++
                [Event.progressInc]) := by
          simp [taskTrace, download_task, hL]
        rw [htr]
        simp only [openFailCount, failWriteCount, List.countP_append]
          at h0 hskip ⊢
        simp [h0, hskip, List.countP_cons, isOpenFailEv, isWriteFailEv]
      · have htr : taskTrace cfg ⟨oracle, exOk, false, false, t⟩ = evs := by
          simp [taskTrace, download_task, hL]
        rw [htr, h0]
    · have htr : taskTrace cfg ⟨oracle, exOk, false, true, t⟩ =
          (if cfg.skip_extract then []
           else extract_one (zipPathOf cfg t) (yearDirOf cfg t) exOk) ++
            [Event.progressInc] := by
        simp [taskTrace, download_task]
      rw [htr]
      simp only [openFailCount, failWriteCount, List.countP_append]
        at hskip ⊢
      simp [hskip, List.countP_cons, isOpenFailEv, isWriteFailEv]
  · simp [taskTrace, download_task, openFailCount, failWriteCount,
      List.countP_cons, isOpenFailEv, isWriteFailEv]

lemma countP_lt_of_exists_not {α : Type} (p : α → Bool) (l : List α)
    (h : ∃ x ∈ l, p x = false) : l.countP p < l.length := by
  induction l with
  | nil => rcases h with ⟨x, hx, _⟩; cases hx
  | cons a l ih =>
    rcases h with ⟨x, hx, hpx⟩
    rcases List.mem_cons.mp hx with rfl | hx'
    · have hle := List.countP_le_length (p := p) (l := l)
      simp [List.countP_cons, hpx]
      omega
    · have hlt := ih ⟨x, hx', hpx⟩
      rw [List.countP_cons]
      simp only [List.length_cons]
      cases p a <;> simp <;> omega

lemma parents_one_append (xs : List (List Char)) (a b : List Char) :
    parents 1 (xs ++ [a, b]) = xs := by
  unfold parents
  have : (xs ++ [a, b]).length - 2 = xs.length := by
    simp [List.length_append]
  rw [this]
  induction xs with
  | nil => rfl
  | cons x xs ih => simp [List.cons_append, List.take_cons, ih]

-- Shared concrete fixtures.

/-- The default configuration: output root `data`, raw subdirectory
`rawdata`, 3 retries, combined download-and-extract workflow, no year
filter. -/
def cfg0 : Config := ⟨["data".data], "rawdata".data, 3, false, none, none⟩

/-- A concrete manifest url. -/
def url0 : List Char := "http://host/path/20150218230000.gkg.csv.zip".data

/-- A concrete task parsed from that url. -/
def task0 : Task := (1234, url0, 2015)

/-- Fetch oracle: every attempt fails with a non-404 transport error. -/
def alwaysFail : Nat → FetchOutcome := fun _ => FetchOutcome.failure

/-- Fetch oracle: every attempt receives HTTP 404. -/
def always404 : Nat → FetchOutcome := fun _ => FetchOutcome.notFound

/-- Fetch oracle: every attempt succeeds. -/
def alwaysOk : Nat → FetchOutcome := fun _ => FetchOutcome.success

lemma sleepsOf_append (a b : List Event) :
    sleepsOf (a ++ b) = sleepsOf a ++ sleepsOf b := by
  simp [sleepsOf, List.filterMap_append]

lemma backoffFailTrace_counts (retries : Nat) (url : List Char)
    (hR : 1 ≤ retries) :
    fetchCount (backoffFailTrace retries url) = retries ∧
    sleepsOf (backoffFailTrace retries url) =
      (attemptSeq 1 (retries - 1)).map (fun k => 2 ^ k) ∧
    failWriteCount (backoffFailTrace retries url) = 1 ∧
    extractCount (backoffFailTrace retries url) = 0 ∧
    progressCount (backoffFailTrace retries url) = 0 ∧
    openFailCount (backoffFailTrace retries url) = 1 := by
  unfold backoffFailTrace
  refine ⟨?_, ?_, ?_, ?_, ?_, ?_⟩
  · simp only [fetchCount, List.countP_append, countP_flatMap_pairF]
    simp [isFetchEv, length_attemptSeq, List.countP_cons]
    omega
  · rw [sleepsOf_append, sleepsOf_flatMap_pairF]
    simp [sleepsOf]
  · simp only [failWriteCount, List.countP_append, countP_flatMap_pairF]
    simp [isWriteFailEv, List.countP_cons]
  · simp only [extractCount, List.countP_append, countP_flatMap_pairF]
    simp [isExtractEv, List.countP_cons]
  · simp only [progressCount, List.countP_append, countP_flatMap_pairF]
    simp [isProgressEv, List.countP_cons]
  · simp only [openFailCount, List.countP_append, countP_flatMap_pairF]
    simp [isOpenFailEv, List.countP_cons]

lemma notFoundTrace_counts (j : Nat) (hj : 1 ≤ j) :
    failWriteCount (notFoundTrace j) = 0 ∧
    openFailCount (notFoundTrace j) = 0 ∧
    warnCount (notFoundTrace j) = 1 ∧
    fetchCount (notFoundTrace j) = j ∧
    extractCount (notFoundTrace j) = 0 ∧
    progressCount (notFoundTrace j) = 0 ∧
    (∀ k, Event.fetchAttempt k ∈ notFoundTrace j → k ≤ j) := by
  unfold notFoundTrace
  refine ⟨?_, ?_, ?_, ?_, ?_, ?_, ?_⟩
  · simp only [failWriteCount, List.countP_append, countP_flatMap_pairF]
    simp [isWriteFailEv, List.countP_cons]
  · simp only [openFailCount, List.countP_append, countP_flatMap_pairF]
    simp [isOpenFailEv, List.countP_cons]
  · simp only [warnCount, List.countP_append, countP_flatMap_pairF]
    simp [isWarnEv, List.countP_cons]
  · simp only [fetchCount, List.countP_append, countP_flatMap_pairF]
    simp [isFetchEv, length_attemptSeq, List.countP_cons]
    omega
  · simp only [extractCount, List.countP_append, countP_flatMap_pairF]
    simp [isExtractEv, List.countP_cons]
  · simp only [progressCount, List.countP_append, countP_flatMap_pairF]
    simp [isProgressEv, List.countP_cons]
  · intro k hk
    rcases List.mem_append.mp hk with h | h
    · have := mem_attemptSeq (fetch_mem_flatMap_pairF h)
      omega
    · simp only [List.mem_cons, List.not_mem_nil, or_false] at h
      rcases h with h | h
      · injection h with h; omega
      · cases h

-- Claim C1.

/-- C1 counterexample: with every fetch answered by HTTP 404, the task is
aborted after exactly one attempt but `failures.log` receives no record
at all — the source's 404 branch only logs a warning and returns, never
touching the failure log, so "exactly one FailureSink record" is false. -/
theorem notFound_one_record_cex :
    fetchCount (download_task cfg0 always404 true false false task0) = 1 ∧
    failWriteCount (download_task cfg0 always404 true false false task0)
      = 0 ∧
    ¬ failWriteCount (download_task cfg0 always404 true false false task0)
      = 1 := by
  decide

/-- C1 (amended): a 404 received on attempt `j` (after `j - 1` transient
failures) is terminal — the task logs one warning, performs no fetch
attempt beyond `j`, is aborted with no extraction and no progress
increment, and appends nothing to the failure log (zero FailureSink
records, rather than the one record the original claim stated). -/
theorem notFound_terminal (cfg : Config) (oracle : Nat → FetchOutcome)
    (exOk : Bool) (t : Task) (j : Nat) (hj1 : 1 ≤ j) (hj2 : j ≤ cfg.retries)
    (hf : ∀ k, 1 ≤ k → k < j → oracle k = FetchOutcome.failure)
    (h404 : oracle j = FetchOutcome.notFound) :
    download_task cfg oracle exOk false false t = notFoundTrace j ∧
    failWriteCount (notFoundTrace j) = 0 ∧
    openFailCount (notFoundTrace j) = 0 ∧
    warnCount (notFoundTrace j) = 1 ∧
    fetchCount (notFoundTrace j) = j ∧
    extractCount (notFoundTrace j) = 0 ∧
    progressCount (notFoundTrace j) = 0 ∧
    (∀ k, Event.fetchAttempt k ∈ notFoundTrace j → k ≤ j) := by
  have hL := retryLoop_notFound oracle cfg.retries t.2.1 j hj1 hj2 hf h404
    cfg.retries 1 (by omega) hj1 (by omega)
  refine ⟨?_, notFoundTrace_counts j hj1⟩
  rw [download_task_loop, hL]
  rfl

/-- C1 witness: the amended theorem applied to a concrete task whose
first attempt receives the 404. -/
theorem notFound_terminal_witness :
    download_task cfg0 always404 true false false task0 =
      notFoundTrace 1 :=
  (notFound_terminal cfg0 always404 true task0 1 (by decide) (by decide)
    (fun k hk1 hk2 => absurd hk2 (by omega)) rfl).1

-- Claim C3.

/-- C3: with retry limit R ≥ 1 and every attempt failing with a non-404
error, the download step performs exactly R fetch attempts, sleeps
`2 ^ attempt` after each failed attempt except the last (the doubling
sequence 2, 4, ..., 2^(R-1)), appends exactly one record to the failure
log, and aborts the task (no extraction, no progress increment); and a
successful fetch terminates the retry loop immediately. -/
theorem persistent_failure_backoff (cfg : Config)
    (oracle : Nat → FetchOutcome) (exOk : Bool) (t : Task)
    (hR : 1 ≤ cfg.retries)
    (hfail : ∀ k, oracle k = FetchOutcome.failure) :
    download_task cfg oracle exOk false false t =
      backoffFailTrace cfg.retries t.2.1 ∧
    fetchCount (backoffFailTrace cfg.retries t.2.1) = cfg.retries ∧
    sleepsOf (backoffFailTrace cfg.retries t.2.1) =
      (attemptSeq 1 (cfg.retries - 1)).map (fun k => 2 ^ k) ∧
    failWriteCount (backoffFailTrace cfg.retries t.2.1) = 1 ∧
    extractCount (backoffFailTrace cfg.retries t.2.1) = 0 ∧
    progressCount (backoffFailTrace cfg.retries t.2.1) = 0 ∧
    (∀ (oracle2 : Nat → FetchOutcome) (fuel attempt : Nat),
      oracle2 attempt = FetchOutcome.success →
      retryLoop oracle2 cfg.retries t.2.1 (fuel + 1) attempt =
        ([Event.fetchAttempt attempt], false)) := by
  have hc := backoffFailTrace_counts cfg.retries t.2.1 hR
  have hL := retryLoop_allFail oracle cfg.retries t.2.1 hfail
    cfg.retries 1 (by omega) hR (by omega)
  refine ⟨?_, hc.1, hc.2.1, hc.2.2.1, hc.2.2.2.1, hc.2.2.2.2.1,
    fun oracle2 fuel attempt h => retryLoop_success _ _ _ _ _ h⟩
  rw [download_task_loop, hL]
  rfl

/-- C3 witness: retry limit 3 with an always-failing fetch gives the
doubling delays 2 and 4 and one failure record. -/
theorem persistent_failure_backoff_witness :
    sleepsOf (backoffFailTrace cfg0.retries task0.2.1) = [2, 4] ∧
    failWriteCount (backoffFailTrace cfg0.retries task0.2.1) = 1 := by
  have h := persistent_failure_backoff cfg0 alwaysFail true task0
    (by decide) (fun k => rfl)
  refine ⟨?_, h.2.2.2.1⟩
  rw [h.2.2.1]
  decide

-- Claim C4.

/-- C4: the resume checks run before any network or decompression work
(combined workflow, `skip_extract = false`, retry limit ≥ 1):
if the extracted-file path exists the trace is a single progress
increment (no fetch, no extraction); else if the archive path exists
there is no fetch but exactly one extraction attempt; otherwise at least
one fetch is performed, and when the first fetch succeeds the trace is
exactly one fetch followed by the extraction and the progress
increment. -/
theorem resume_guard_skips (cfg : Config) (oracle : Nat → FetchOutcome)
    (exOk : Bool) (t : Task) (hmode : cfg.skip_extract = false)
    (hR : 1 ≤ cfg.retries) :
    (∀ zipE, download_task cfg oracle exOk true zipE t =
      [Event.progressInc]) ∧
    fetchCount (download_task cfg oracle exOk false true t) = 0 ∧
    extractCount (download_task cfg oracle exOk false true t) = 1 ∧
    1 ≤ fetchCount (download_task cfg oracle exOk false false t) ∧
    (oracle 1 = FetchOutcome.success →
      download_task cfg oracle exOk false false t =
        Event.fetchAttempt 1 ::
          (extract_one (zipPathOf cfg t) (yearDirOf cfg t) exOk ++
            [Event.progressInc])) := by
  have hzip := download_task_zipExists cfg oracle exOk t
  rw [hmode] at hzip
  simp only [if_false, Bool.false_eq_true] at hzip
  refine ⟨fun zipE => rfl, ?_, ?_, ?_, ?_⟩
  · rw [hzip]
    have h := (extract_one_counts (zipPathOf cfg t) (yearDirOf cfg t) exOk).2.1
    simp only [fetchCount, List.countP_append] at h ⊢
    simp [h, List.countP_cons, isFetchEv]
  · rw [hzip]
    have h := (extract_one_counts (zipPathOf cfg t) (yearDirOf cfg t) exOk).2.2.1
    simp only [extractCount, List.countP_append] at h ⊢
    simp [h, List.countP_cons, isExtractEv]
  · have hpos := retryLoop_fetch_pos oracle cfg.retries t.2.1
      cfg.retries 1 hR
    rw [download_task_loop]
    rcases hL : retryLoop oracle cfg.retries t.2.1 cfg.retries 1 with ⟨evs, ab⟩
    rw [hL] at hpos
    cases ab
    · simp only [if_false, Bool.false_eq_true]
      simp only [fetchCount, List.countP_append] at hpos ⊢
      omega
    · simpa using hpos
  · intro hs
    have hL : retryLoop oracle cfg.retries t.2.1 cfg.retries 1 =
        ([Event.fetchAttempt 1], false) := by
      obtain ⟨R, hR'⟩ : ∃ R, cfg.retries = R + 1 := ⟨cfg.retries - 1, by omega⟩
      rw [hR']
      exact retryLoop_success oracle _ t.2.1 R 1 hs
    rw [download_task_loop, hL, hmode]
    rfl

/-- C4 witness: the three resume cases evaluated on a concrete task. -/
theorem resume_guard_skips_witness :
    download_task cfg0 alwaysOk true false false task0 =
      Event.fetchAttempt 1 ::
        (extract_one (zipPathOf cfg0 task0) (yearDirOf cfg0 task0) true ++
          [Event.progressInc]) :=
  (resume_guard_skips cfg0 alwaysOk true task0 rfl (by decide)).2.2.2.2 rfl

-- Claim C5.

/-- A line has exactly three whitespace-separated fields. -/
def fields3 (line : List Char) : Bool := (splitWs line).length == 3

/-- The first whitespace-separated field (the size). -/
def sizeField (line : List Char) : List Char := (splitWs line).headD []

/-- The last whitespace-separated field (the url, on a 3-field line). -/
def urlField (line : List Char) : List Char :=
  ((splitWs line).getLast?).getD []

/-- Whether the url field ends with the archive suffix. -/
def suffixOkB (line : List Char) : Bool :=
  gkgSuffix.isSuffixOf (urlField line)

/-- Whether the size field parses as a Python int (sign allowed). -/
def sizeParses (line : List Char) : Bool :=
  (pyIntParse (sizeField line)).isSome

/-- Whether the first four characters of the filename's leading
dot-component parse as a Python int (this is the year extraction, whose
failure silently drops the line via the `except` clause). -/
def yearParses (line : List Char) : Bool :=
  (pyIntParse ((tsOf (nameOf (urlField line))).take 4)).isSome

/-- Whether `parse_masterfiles` accepts a line, before the year filter. -/
def acceptLine (line : List Char) : Bool := (parseLineRaw line).isSome

/-- The acceptance predicate exactly as claim C5 words it: exactly three
whitespace-separated fields, url ending in the archive suffix, and a
size field parsing as a NON-NEGATIVE integer.  (Definition follows the
claim's words, for comparison against `acceptLine` from the source.) -/
def specAcceptC5 (line : List Char) : Bool :=
  fields3 line && suffixOkB line &&
    (match pyIntParse (sizeField line) with
     | some n => decide (0 ≤ n)
     | none => false)

/-- A manifest line with a negative size field. -/
def lNegSize : List Char := "-1 h http://host/20150101000000.gkg.csv.zip".data

/-- A manifest line whose filename yields no parsable year. -/
def lNoYear : List Char := "5 h http://host/nodigits.gkg.csv.zip".data

/-- C5 counterexample: the claimed acceptance condition differs from the
code's in both directions — a negative size is accepted by the code
(Python `int` parses the sign) though the claim requires non-negative,
and a line whose filename has no parsable 4-character year prefix is
dropped by the code though the claim accepts it. -/
theorem manifest_accept_cex :
    acceptLine lNegSize = true ∧ specAcceptC5 lNegSize = false ∧
    acceptLine lNoYear = false ∧ specAcceptC5 lNoYear = true := by
  decide

lemma lineTask_noFilter (cfg : Config) (h1 : cfg.year_from = none)
    (h2 : cfg.year_to = none) (line : List Char) :
    lineTask cfg line = parseLineRaw line := by
  unfold lineTask
  rcases hp : parseLineRaw line with _ | t
  · rfl
  · simp [yearKeep, dropLow, dropHigh, h1, h2]

lemma length_filterMap_isSome {α β : Type} (f : α → Option β)
    (l : List α) :
    (l.filterMap f).length = l.countP (fun a => (f a).isSome) := by
  induction l with
  | nil => rfl
  | cons a l ih =>
    rcases h : f a with _ | b <;>
      simp [List.filterMap_cons, h, List.countP_cons, ih]

/-- C5 (amended): a manifest line is accepted iff it has exactly three
whitespace-separated fields, its url ends with the archive suffix, its
size field parses as a (possibly signed — negative sizes included)
integer, AND the first four characters of the filename's leading
dot-component parse as an integer; all other lines are silently dropped,
and with no year filter configured the task list — under any shuffle
permutation — has exactly as many tasks as accepted lines. -/
theorem manifest_accept_iff :
    (∀ line, acceptLine line =
      (fields3 line && suffixOkB line && sizeParses line &&
        yearParses line)) ∧
    (∀ (cfg : Config) (lines : List (List Char)) (shuffled : List Task),
      cfg.year_from = none → cfg.year_to = none →
      shuffled.Perm (parse_masterfiles cfg lines).1 →
      shuffled.length = lines.countP acceptLine) := by
  constructor
  · intro line
    rcases hs : splitWs line with _ | ⟨a, _ | ⟨b, _ | ⟨c, _ | ⟨d, l⟩⟩⟩⟩
    · simp [acceptLine, parseLineRaw, fields3, sizeField, urlField,
        suffixOkB, sizeParses, yearParses, hs]
    · simp [acceptLine, parseLineRaw, fields3, sizeField, urlField,
        suffixOkB, sizeParses, yearParses, hs]
    · simp [acceptLine, parseLineRaw, fields3, sizeField, urlField,
        suffixOkB, sizeParses, yearParses, hs]
    · by_cases hsf : gkgSuffix.isSuffixOf c
      · rcases hpz : pyIntParse a with _ | n
        · simp [acceptLine, parseLineRaw, fields3, sizeField, urlField,
            suffixOkB, sizeParses, yearParses, hs, hsf, hpz]
        · rcases hpy : pyIntParse ((tsOf (nameOf c)).take 4) with _ | y <;>
            simp [acceptLine, parseLineRaw, fields3, sizeField, urlField,
              suffixOkB, sizeParses, yearParses, hs, hsf, hpz, hpy]
      · simp [acceptLine, parseLineRaw, fields3, sizeField, urlField,
          suffixOkB, sizeParses, yearParses, hs, hsf]
    · simp [acceptLine, parseLineRaw, fields3, sizeField, urlField,
        suffixOkB, sizeParses, yearParses, hs]
  · intro cfg lines shuffled h1 h2 hperm
    rw [hperm.length_eq]
    simp only [parse_masterfiles]
    rw [length_filterMap_isSome]
    apply List.countP_congr
    intro a _
    rw [lineTask_noFilter cfg h1 h2, acceptLine]

/-- C5 witness: the count statement applied to a concrete two-line
manifest with the identity shuffle. -/
theorem manifest_accept_iff_witness :
    ((parse_masterfiles cfg0 [lNegSize, lNoYear]).1).length =
      [lNegSize, lNoYear].countP acceptLine :=
  manifest_accept_iff.2 cfg0 [lNegSize, lNoYear]
    (parse_masterfiles cfg0 [lNegSize, lNoYear]).1 rfl rfl
    (List.Perm.refl _)

-- Claim C7.

/-- The configuration with inclusive year filter [2016, 2020]. -/
def cfg1620 : Config :=
  ⟨["data".data], "rawdata".data, 3, false, some 2016, some 2020⟩

/-- The concrete manifest line of the claim. -/
def line7 : List Char :=
  "1234 abcd1234ef http://host/path/20150218230000.gkg.csv.zip".data

/-- The url inside `line7`. -/
def url7 : List Char :=
  "http://host/path/20150218230000.gkg.csv.zip".data

/-- C7: the year filter is inclusive on both bounds and an absent bound
is unbounded; the concrete line with filter [2016, 2020] yields zero
tasks, and with no filter yields exactly one task with year 2015 and
size 1234 (which is also the reported byte total). -/
theorem year_filter_inclusive :
    (parse_masterfiles cfg1620 [line7]).1 = [] ∧
    parse_masterfiles cfg0 [line7] =
      ([((1234 : Int), url7, (2015 : Int))], 1234) ∧
    (∀ a b y : Int, 0 < a → 0 < b →
      (yearKeep (some a) (some b) y = true ↔ a ≤ y ∧ y ≤ b)) ∧
    (∀ y : Int, yearKeep none none y = true) := by
  refine ⟨by decide, by decide, ?_, fun y => rfl⟩
  intro a b y ha hb
  have ha' : ¬ a = 0 := by omega
  have hb' : ¬ b = 0 := by omega
  simp [yearKeep, dropLow, dropHigh, ha', hb']

/-- C7 witness: inclusivity evaluated at the bounds themselves. -/
theorem year_filter_inclusive_witness :
    (yearKeep (some 2016) (some 2020) 2016 = true ↔
      (2016 : Int) ≤ 2016 ∧ (2016 : Int) ≤ 2020) ∧
    (yearKeep (some 2016) (some 2020) 2015 = true ↔
      (2016 : Int) ≤ 2015 ∧ (2015 : Int) ≤ 2020) :=
  ⟨year_filter_inclusive.2.2.1 2016 2020 2016 (by decide) (by decide),
   year_filter_inclusive.2.2.1 2016 2020 2015 (by decide) (by decide)⟩

-- Claim C8.

/-- A second always-failing task, to make two concurrent failure
records. -/
def task8 : Task :=
  (5678, "http://host/path/20160218230000.gkg.csv.zip".data, 2016)

/-- A two-task run in which both tasks exhaust their retries. -/
def run8 : List TaskRun :=
  [⟨alwaysFail, true, false, false, task0⟩,
   ⟨alwaysFail, true, false, false, task8⟩]

/-- C8 counterexample: recording two failures opens `failures.log` twice
— the source does `open("a").write(...)` afresh for every record, so
there is no single serialized writer (a single writer would open the
shared log at most once for the whole run). -/
theorem failure_log_single_writer_cex :
    openFailCount (runTrace cfg0 run8) = 2 ∧
    failWriteCount (runTrace cfg0 run8) = 2 ∧
    ¬ openFailCount (runTrace cfg0 run8) ≤ 1 := by
  decide

/-- C8 (amended): every FailureSink record is one write of a single
newline-terminated line, but each record independently re-opens the
shared failure log in append mode — in every run the number of
`open("a")` calls equals the number of records, so access is NOT
serialized through a single writer, and line-granularity atomicity is
delegated to the platform's append semantics rather than enforced by the
program. -/
theorem failure_log_open_per_record (cfg : Config) (rs : List TaskRun) :
    openFailCount (runTrace cfg rs) = failWriteCount (runTrace cfg rs) := by
  induction rs with
  | nil => rfl
  | cons r rs ih =>
    have h1 := openWrite_taskTrace cfg r
    simp only [runTrace, List.flatMap_cons, openFailCount, failWriteCount,
      List.countP_append] at *
    omega

-- Claim C9.

/-- C9: the file-progress counter is incremented exactly once for a task
that ends in success, resume-skip, or an extraction-stage failure, and
not at all for a task aborted in the download stage (404 or exhausted
retries); over a run the counter equals the number of non-aborted tasks,
so any download-stage failure leaves it strictly below the task count. -/
theorem progress_counter_semantics :
    (∀ (cfg : Config) (r : TaskRun),
      progressCount (taskTrace cfg r) = if dlAborted cfg r then 0 else 1) ∧
    (∀ (cfg : Config) (rs : List TaskRun),
      progressCount (runTrace cfg rs) =
        rs.countP (fun r => !dlAborted cfg r)) ∧
    (∀ (cfg : Config) (rs : List TaskRun),
      (∃ r ∈ rs, dlAborted cfg r = true) →
      progressCount (runTrace cfg rs) < rs.length) := by
  refine ⟨progress_taskTrace, progress_runTrace, ?_⟩
  intro cfg rs h
  rw [progress_runTrace]
  apply countP_lt_of_exists_not
  rcases h with ⟨r, hr, hab⟩
  exact ⟨r, hr, by simp [hab]⟩

/-- C9 witness: a single-task run whose task exhausts its retries ends
with the counter strictly below the task count. -/
theorem progress_counter_semantics_witness :
    progressCount (runTrace cfg0 [⟨alwaysFail, true, false, false, task0⟩])
      < 1 :=
  progress_counter_semantics.2.2 cfg0
    [⟨alwaysFail, true, false, false, task0⟩]
    ⟨⟨alwaysFail, true, false, false, task0⟩, List.mem_singleton.mpr rfl,
      by decide⟩

-- Claim C10.

/-- C10: the extraction-only mode has no resume check — every file
discovered under a raw subdirectory that passes the year filter is
submitted for extraction unconditionally, whatever else (in particular
its own previously extracted output) exists on disk. -/
theorem extract_only_unconditional (cfg : Config)
    (fsFiles : List (List (List Char))) (okF : List (List Char) → Bool)
    (zp : List (List Char)) (hmem : zp ∈ fsFiles)
    (hmatch : rawZipMatch cfg zp = true)
    (hyear : standaloneKeepYear cfg zp = true) :
    Event.extract zp (parents 2 zp) ∈ extract_only_run cfg fsFiles okF := by
  unfold extract_only_run
  apply List.mem_flatMap.mpr
  refine ⟨zp, ?_, ?_⟩
  · exact List.mem_filter.mpr ⟨List.mem_filter.mpr ⟨hmem, hmatch⟩, hyear⟩
  · simp [extract_one]

/-- An archive path in the output tree. -/
def zpW : List (List Char) :=
  ["data".data, "2015".data, "rawdata".data,
   "20150218230000.gkg.csv.zip".data]

/-- The extracted output of `zpW`, already present on disk. -/
def extractedW : List (List Char) :=
  ["data".data, "2015".data, "20150218230000.gkg.csv".data]

/-- C10 witness: the archive is re-extracted even though its extracted
output already exists on disk. -/
theorem extract_only_unconditional_witness :
    Event.extract zpW (parents 2 zpW) ∈
      extract_only_run cfg0 [zpW, extractedW] (fun _ => true) :=
  extract_only_unconditional cfg0 [zpW, extractedW] (fun _ => true) zpW
    (List.mem_cons_self _ _) (by decide) (by decide)

-- Claim C2.

/-- The extraction target as the spec words it: strip the raw
subdirectory and the archive filename from the archive path, landing in
the year directory `outputRoot/<year>/`.  (Definition follows the spec's
words, for comparison with the targets that the source passes.) -/
def specYearTarget (zp : List (List Char)) : List (List Char) :=
  parents 1 zp

/-- A discovered archive path for the extraction-target evaluation. -/
def zpBug : List (List Char) :=
  ["data".data, "2015".data, "rawdata".data,
   "20150218230000.gkg.csv.zip".data]

/-- C2: the inline (download-and-extract) path does extract into the
year directory, which equals the spec's strip-two-components target; but
the standalone extract-only path passes `zp.parents[2]` — evaluated at a
conforming archive path this is the output root `data`, not the year
directory `data/2015`, so the extraction-target contract is violated in
standalone mode (the source's own docstring promises `.../YEAR/`). -/
theorem extract_target_evaluation :
    (∀ (cfg : Config) (oracle : Nat → FetchOutcome) (exOk : Bool)
      (t : Task), cfg.skip_extract = false →
      oracle 1 = FetchOutcome.success → 1 ≤ cfg.retries →
      download_task cfg oracle exOk false false t =
        Event.fetchAttempt 1 ::
          (extract_one (zipPathOf cfg t) (yearDirOf cfg t) exOk ++
            [Event.progressInc])) ∧
    (∀ (cfg : Config) (t : Task),
      specYearTarget (zipPathOf cfg t) = yearDirOf cfg t) ∧
    extract_only_run cfg0 [zpBug] (fun _ => true) =
      [Event.extract zpBug (parents 2 zpBug)] ∧
    parents 2 zpBug = ["data".data] ∧
    specYearTarget zpBug = ["data".data, "2015".data] ∧
    ¬ parents 2 zpBug = specYearTarget zpBug := by
  refine ⟨?_, ?_, by decide, by decide, by decide, by decide⟩
  · intro cfg oracle exOk t hmode hs hR
    have hL : retryLoop oracle cfg.retries t.2.1 cfg.retries 1 =
        ([Event.fetchAttempt 1], false) := by
      obtain ⟨R, hR'⟩ : ∃ R, cfg.retries = R + 1 := ⟨cfg.retries - 1, by omega⟩
      rw [hR']
      exact retryLoop_success oracle _ t.2.1 R 1 hs
    rw [download_task_loop, hL, hmode]
    rfl
  · intro cfg t
    unfold specYearTarget zipPathOf
    exact parents_one_append (yearDirOf cfg t) cfg.raw_subdir (nameOf t.2.1)

/-- C2 witness: the inline extraction target at a concrete successful
task. -/
theorem extract_target_evaluation_witness :
    download_task cfg0 alwaysOk true false false task0 =
      Event.fetchAttempt 1 ::
        (extract_one (zipPathOf cfg0 task0) (yearDirOf cfg0 task0) true ++
          [Event.progressInc]) :=
  extract_target_evaluation.1 cfg0 alwaysOk true task0 rfl rfl (by decide)

-- Claim C6.

/-- The files created by the extraction events of a trace, given the
entry list of each archive (`zf.extractall(target)` writes
`target/<entry>` for every contained entry). -/
def extractedOf (entriesF : List (List Char) → List (List Char))
    (evs : List Event) : List (List (List Char)) :=
  evs.flatMap (fun e => match e with
    | Event.extract zp target => (entriesF zp).map (fun en => target ++ [en])
    | _ => [])

/-- Archive contents for the convergence scenario: each archive holds
the single CSV named by stripping `.zip` from its filename (the same
convention the source uses for `csv_name`). -/
def gkgEntries (zp : List (List Char)) : List (List Char) :=
  [csvName ((zp.getLast?).getD [])]

/-- The two-line manifest of the scenario. -/
def manifest6 : List (List Char) :=
  ["1234 aaaa http://host/path/20150218230000.gkg.csv.zip".data,
   "5678 bbbb http://host/path/20160218230000.gkg.csv.zip".data]

/-- Its task list. -/
def tasks6 : List Task := (parse_masterfiles cfg0 manifest6).1

/-- Trace of the combined download-and-extract run over the manifest on
a fresh tree: every fetch succeeds and every archive extracts cleanly. -/
def combinedTrace6 : List Event :=
  runTrace cfg0 (tasks6.map (fun t => ⟨alwaysOk, true, false, false, t⟩))

/-- The extracted files after the combined run. -/
def combinedFiles6 : List (List (List Char)) :=
  extractedOf gkgEntries combinedTrace6

/-- All files on disk after the combined run: extracted CSVs plus the
downloaded archives. -/
def diskAfter6 : List (List (List Char)) :=
  combinedFiles6 ++ tasks6.map (zipPathOf cfg0)

/-- The additional extracted files produced by a follow-up extract-only
run over the same output root. -/
def standaloneFiles6 : List (List (List Char)) :=
  extractedOf gkgEntries (extract_only_run cfg0 diskAfter6 (fun _ => true))

/-- The extracted files after the split (download-and-extract, then
extract-only) workflow. -/
def splitFiles6 : List (List (List Char)) :=
  combinedFiles6 ++ standaloneFiles6

/-- A file the split workflow creates at the output root. -/
def strayFile6 : List (List Char) :=
  ["data".data, "20150218230000.gkg.csv".data]

/-- C6: the split workflow is NOT extensionally equal to the combined
workflow — the follow-up extract-only pass re-extracts each archive into
the output root (`zp.parents[2]`) instead of its year directory, so the
split run's final extracted-file set contains `data/20150218230000.gkg.csv`,
which the combined run never creates. -/
theorem split_workflow_divergence :
    strayFile6 ∈ splitFiles6 ∧
    strayFile6 ∉ combinedFiles6 ∧
    ¬ (∀ p, p ∈ splitFiles6 ↔ p ∈ combinedFiles6) := by
  refine ⟨by decide, by decide, fun h => ?_⟩
  exact absurd ((h strayFile6).mp (by decide)) (by decide)

end Gdelt
